import Mathlib

/-!
Verification of the Go fixed-window rate limiter (rate_limiter.go,
middleware.go, main.go), shallowly embedded in Lean.

Modelling conventions:
* Go `map[string]int` is modelled as `String → Option Int`; a missing key
  reads as the zero value `0`, exactly as in Go.
* Go `int` and `time.Duration` are modelled as `Int`; counts are bounded by
  `max 0 MaxRequests`, so 64-bit overflow cannot occur and no modular
  reduction is needed.
* The `sync.Mutex` field serialises every operation on the shared map: each
  exported operation holds the lock for its whole body, so a concurrent
  execution is equivalent to some sequential interleaving of whole
  operations. The embedding therefore models each operation as an atomic
  state-transition function.
* `time.NewTicker` (Go standard library) panics when its duration is not
  positive; `NewRateLimiter` calls it synchronously via `startResetTicker`,
  so construction is modelled as `Option`-valued.
-/

/-- Read of a Go `map[string]int`: a missing key yields the zero value 0. -/
def mapRead (m : String → Option Int) (k : String) : Int :=
  (m k).getD 0

/-- Write `m[k] = v` of a Go `map[string]int`. -/
def mapWrite (m : String → Option Int) (k : String) (v : Int) :
    String → Option Int :=
  fun k2 => if k2 = k then some v else m k2

/-- The `RateLimiter` struct of rate_limiter.go. The `sync.Mutex` field is
not data; it is modelled by the atomicity of the operations below. -/
structure RateLimiter where
  Requests : String → Option Int
  MaxRequests : Int
  WindowDuration : Int

/-- `NewRateLimiter` (rate_limiter.go). It stores the two parameters
unvalidated and starts the reset ticker; `time.NewTicker` panics when
`WindowDuration <= 0`, which is modelled as `none`. -/
def NewRateLimiter (maxRequests : Int) (windowDuration : Int) :
    Option RateLimiter :=
  if windowDuration ≤ 0 then none
  else some { Requests := fun _ => none
              MaxRequests := maxRequests
              WindowDuration := windowDuration }

/-- `AllowRequest` (rate_limiter.go): under the mutex, read the count
(default 0); if it is `>= MaxRequests` return `false` without mutation,
otherwise store count+1 and return `true`. -/
def AllowRequest (rl : RateLimiter) (ip : String) : Bool × RateLimiter :=
  let currentCount := mapRead rl.Requests ip
  if currentCount ≥ rl.MaxRequests then
    (false, rl)
  else
    (true, { rl with Requests := mapWrite rl.Requests ip (currentCount + 1) })

/-- `GetRemainingRequests` (rate_limiter.go): `MaxRequests - count`,
clamped below at 0. -/
def GetRemainingRequests (rl : RateLimiter) (ip : String) : Int :=
  let currentCount := mapRead rl.Requests ip
  let remaining := rl.MaxRequests - currentCount
  if remaining < 0 then 0 else remaining

/-- One firing of the ticker body in `startResetTicker` (rate_limiter.go):
under the mutex, replace `Requests` with a fresh empty map. -/
def resetTick (rl : RateLimiter) : RateLimiter :=
  { rl with Requests := fun _ => none }

/-- `n` successive `AllowRequest` calls for the same identifier, returning
the list of results in call order together with the final state. -/
def allowN (rl : RateLimiter) (ip : String) : Nat → List Bool × RateLimiter
  | 0 => ([], rl)
  | n + 1 =>
    let step := AllowRequest rl ip
    let rest := allowN step.2 ip n
    (step.1 :: rest.1, rest.2)

/-- States reachable through the limiter's API: construction, admission
checks, and ticker resets (`GetRemainingRequests` does not write). -/
inductive Reachable : RateLimiter → Prop
  | init (maxRequests windowDuration : Int) (rl : RateLimiter) :
      NewRateLimiter maxRequests windowDuration = some rl → Reachable rl
  | allow (rl : RateLimiter) (ip : String) :
      Reachable rl → Reachable (AllowRequest rl ip).2
  | reset (rl : RateLimiter) :
      Reachable rl → Reachable (resetTick rl)

/-! ## The middleware (middleware.go) -/

/-- The request data `getClientIP` inspects. `xForwardedFor` and `xRealIP`
hold `r.Header.Get(...)`, which returns `""` when the header is absent;
`remoteAddr` holds `r.RemoteAddr`. -/
structure Request where
  xForwardedFor : String
  xRealIP : String
  remoteAddr : String
deriving DecidableEq

/-- Whitespace as trimmed by Go `strings.TrimSpace` (ASCII cases; the
inputs of this system are IP-address strings). -/
def goIsSpace (c : Char) : Bool :=
  c = ' ' || c = '\t' || c = '\n' || c = '\x0b' || c = '\x0c' || c = '\r'

/-- Go `strings.TrimSpace`: drop leading and trailing whitespace. -/
def goTrimSpace (s : String) : String :=
  ⟨((s.data.dropWhile goIsSpace).reverse.dropWhile goIsSpace).reverse⟩

/-- Go `strings.Split` on a one-character separator, at the level of
character lists; it always returns at least one (possibly empty) piece. -/
def splitChars (sep : Char) : List Char → List (List Char)
  | [] => [[]]
  | c :: cs =>
    let rest := splitChars sep cs
    if c = sep then [] :: rest
    else (c :: rest.headD []) :: rest.tail

/-- The `RemoteAddr` fallback of `getClientIP`: if the string contains a
colon, keep only the part before the last colon (`strings.LastIndex` plus
slicing); otherwise return it unchanged. -/
def stripPort (s : String) : String :=
  if s.data.contains ':' then
    ⟨(((s.data.reverse.dropWhile (fun c => c ≠ ':'))).drop 1).reverse⟩
  else s

/-- `getClientIP` (middleware.go): first comma-separated entry of
`X-Forwarded-For` trimmed, when that header is non-empty (the code's
`len(ips) > 0` guard always holds since `strings.Split` returns at least
one piece); else `X-Real-IP` trimmed, when non-empty; else `RemoteAddr`
with everything from its last colon on removed. -/
def getClientIP (r : Request) : String :=
  if r.xForwardedFor ≠ "" then
    goTrimSpace ⟨(splitChars ',' r.xForwardedFor.data).headD []⟩
  else if r.xRealIP ≠ "" then
    goTrimSpace r.xRealIP
  else
    stripPort r.remoteAddr

/-- Outcome of one middleware invocation: either the downstream handler was
invoked with a request, or a response was written without invoking it. -/
inductive MWResult where
  | passed (req : Request)
  | rejected (status : Nat) (contentType : String) (body : String)
deriving DecidableEq

/-- The body written on rejection: `json.NewEncoder(w).Encode` of the map
with the single key "error", which emits compact JSON plus a newline. -/
def rateLimitErrorBody : String := "\x7b\"error\":\"Rate limit exceeded\"\x7d\n"

/-- `RateLimitMiddleware` (middleware.go) applied to one request: extract
the client IP, consult `AllowRequest`, and either pass the original request
to the next handler or write a 429 JSON rejection. -/
def RateLimitMiddleware (rl : RateLimiter) (r : Request) :
    MWResult × RateLimiter :=
  let ip := getClientIP r
  let step := AllowRequest rl ip
  if step.1 then (MWResult.passed r, step.2)
  else (MWResult.rejected 429 "application/json" rateLimitErrorBody, step.2)

/-! ## Basic lemmas about the embedded operations -/

theorem mapRead_write_self (m : String → Option Int) (k : String) (v : Int) :
    mapRead (mapWrite m k v) k = v := by
  simp [mapRead, mapWrite]

theorem mapRead_write_other (m : String → Option Int) (k k2 : String)
    (v : Int) (h : k2 ≠ k) : mapRead (mapWrite m k v) k2 = mapRead m k2 := by
  simp [mapRead, mapWrite, h]

theorem allowRequest_of_ge (rl : RateLimiter) (ip : String)
    (h : rl.MaxRequests ≤ mapRead rl.Requests ip) :
    AllowRequest rl ip = (false, rl) := by
  simp [AllowRequest, h]

theorem allowRequest_of_lt (rl : RateLimiter) (ip : String)
    (h : mapRead rl.Requests ip < rl.MaxRequests) :
    AllowRequest rl ip =
      (true, { rl with
               Requests := mapWrite rl.Requests ip
                 (mapRead rl.Requests ip + 1) }) := by
  simp [AllowRequest, not_le.mpr h]

theorem allowRequest_max (rl : RateLimiter) (ip : String) :
    (AllowRequest rl ip).2.MaxRequests = rl.MaxRequests := by
  by_cases h : rl.MaxRequests ≤ mapRead rl.Requests ip
  · rw [allowRequest_of_ge rl ip h]
  · rw [allowRequest_of_lt rl ip (lt_of_not_le h)]

theorem allowRequest_window (rl : RateLimiter) (ip : String) :
    (AllowRequest rl ip).2.WindowDuration = rl.WindowDuration := by
  by_cases h : rl.MaxRequests ≤ mapRead rl.Requests ip
  · rw [allowRequest_of_ge rl ip h]
  · rw [allowRequest_of_lt rl ip (lt_of_not_le h)]

theorem allowRequest_other (rl : RateLimiter) (a b : String) (h : b ≠ a) :
    (AllowRequest rl a).2.Requests b = rl.Requests b := by
  by_cases hc : rl.MaxRequests ≤ mapRead rl.Requests a
  · rw [allowRequest_of_ge rl a hc]
  · rw [allowRequest_of_lt rl a (lt_of_not_le hc)]
    show mapWrite rl.Requests a _ b = rl.Requests b
    simp [mapWrite, h]

theorem getRemaining_eq_max (rl : RateLimiter) (ip : String) :
    GetRemainingRequests rl ip =
      max 0 (rl.MaxRequests - mapRead rl.Requests ip) := by
  unfold GetRemainingRequests
  by_cases h : rl.MaxRequests - mapRead rl.Requests ip < 0
  · simp only [if_pos h]
    omega
  · simp only [if_neg h]
    omega

theorem allowN_succ (rl : RateLimiter) (ip : String) (n : Nat) :
    allowN rl ip (n + 1) =
      ((AllowRequest rl ip).1 :: (allowN (AllowRequest rl ip).2 ip n).1,
       (allowN (AllowRequest rl ip).2 ip n).2) := rfl

/-- Once the stored count is at or above the limit, every further call is
rejected and the state is frozen. -/
theorem allowN_saturated (n : Nat) (rl : RateLimiter) (ip : String)
    (h : rl.MaxRequests ≤ mapRead rl.Requests ip) :
    allowN rl ip n = (List.replicate n false, rl) := by
  induction n with
  | zero => rfl
  | succ n ih =>
    rw [allowN_succ, allowRequest_of_ge rl ip h]
    simp [ih, List.replicate_succ]

/-- While `k` more acceptances fit under the limit, `k` calls all succeed,
the count rises by exactly `k`, and nothing else changes. -/
theorem allowN_accepts (k : Nat) (rl : RateLimiter) (ip : String)
    (h : mapRead rl.Requests ip + k ≤ rl.MaxRequests) :
    (allowN rl ip k).1 = List.replicate k true ∧
    mapRead (allowN rl ip k).2.Requests ip = mapRead rl.Requests ip + k ∧
    (allowN rl ip k).2.MaxRequests = rl.MaxRequests ∧
    (allowN rl ip k).2.WindowDuration = rl.WindowDuration ∧
    (∀ b, b ≠ ip → (allowN rl ip k).2.Requests b = rl.Requests b) := by
  induction k generalizing rl with
  | zero => simp [allowN]
  | succ k ih =>
    have hlt : mapRead rl.Requests ip < rl.MaxRequests := by
      have : (0 : Int) ≤ (k : Int) := Int.ofNat_nonneg k
      push_cast at h
      omega
    have hstep := allowRequest_of_lt rl ip hlt
    set rl2 : RateLimiter :=
      { rl with
        Requests := mapWrite rl.Requests ip (mapRead rl.Requests ip + 1) }
      with hrl2
    have hread2 : mapRead rl2.Requests ip = mapRead rl.Requests ip + 1 := by
      rw [hrl2]
      exact mapRead_write_self rl.Requests ip (mapRead rl.Requests ip + 1)
    have hnext : mapRead rl2.Requests ip + k ≤ rl2.MaxRequests := by
      rw [hread2, hrl2]
      push_cast at h ⊢
      omega
    obtain ⟨ih1, ih2, ih3, ih4, ih5⟩ := ih rl2 hnext
    have hrun : allowN rl ip (k + 1) =
        (true :: (allowN rl2 ip k).1, (allowN rl2 ip k).2) := by
      rw [allowN_succ, hstep]
    refine ⟨?_, ?_, ?_, ?_, ?_⟩
    · rw [hrun, ih1]
      rfl
    · rw [hrun]
      show mapRead (allowN rl2 ip k).2.Requests ip = _
      rw [ih2, hread2]
      push_cast
      ring
    · rw [hrun]
      show (allowN rl2 ip k).2.MaxRequests = _
      rw [ih3]
    · rw [hrun]
      show (allowN rl2 ip k).2.WindowDuration = _
      rw [ih4]
    · intro b hb
      rw [hrun]
      show (allowN rl2 ip k).2.Requests b = _
      rw [ih5 b hb, hrl2]
      show mapWrite rl.Requests ip _ b = rl.Requests b
      simp [mapWrite, hb]

/-- Repeated calls for identifier `a` never touch any other identifier's
entry nor the configuration. -/
theorem allowN_frame (n : Nat) (rl : RateLimiter) (a b : String)
    (h : b ≠ a) :
    (allowN rl a n).2.Requests b = rl.Requests b ∧
    (allowN rl a n).2.MaxRequests = rl.MaxRequests ∧
    (allowN rl a n).2.WindowDuration = rl.WindowDuration := by
  induction n generalizing rl with
  | zero => exact ⟨rfl, rfl, rfl⟩
  | succ n ih =>
    have hrun : allowN rl a (n + 1) =
        ((AllowRequest rl a).1 :: (allowN (AllowRequest rl a).2 a n).1,
         (allowN (AllowRequest rl a).2 a n).2) := rfl
    obtain ⟨ih1, ih2, ih3⟩ := ih (AllowRequest rl a).2
    rw [hrun]
    exact ⟨ih1.trans (allowRequest_other rl a b h),
           ih2.trans (allowRequest_max rl a),
           ih3.trans (allowRequest_window rl a)⟩

/-! ## The reachable-state invariant -/

/-- Every key actually present in the Requests map stores a count between 1
and MaxRequests. -/
def CountsInvariant (rl : RateLimiter) : Prop :=
  ∀ ip v, rl.Requests ip = some v → 1 ≤ v ∧ v ≤ rl.MaxRequests

theorem counts_bounds_of_reachable (rl : RateLimiter) (h : Reachable rl) :
    CountsInvariant rl := by
  induction h with
  | init m w rl hmk =>
    intro ip v hv
    unfold NewRateLimiter at hmk
    by_cases hw : w ≤ 0
    · rw [if_pos hw] at hmk
      exact absurd hmk (by simp)
    · rw [if_neg hw] at hmk
      injection hmk with hmk
      rw [← hmk] at hv
      exact absurd hv (by simp)
  | allow rl ip hr ih =>
    by_cases hc : rl.MaxRequests ≤ mapRead rl.Requests ip
    · have h2 : (AllowRequest rl ip).2 = rl := by
        rw [allowRequest_of_ge rl ip hc]
      rw [h2]
      exact ih
    · have hlt := lt_of_not_le hc
      have h2 : (AllowRequest rl ip).2 =
          { rl with
            Requests := mapWrite rl.Requests ip
              (mapRead rl.Requests ip + 1) } := by
        rw [allowRequest_of_lt rl ip hlt]
      rw [h2]
      intro b v hv
      simp only [mapWrite] at hv
      by_cases hb : b = ip
      · rw [if_pos hb] at hv
        injection hv with hv
        have hge : 0 ≤ mapRead rl.Requests ip := by
          cases hm : rl.Requests ip with
          | none => simp [mapRead, hm]
          | some v0 =>
            have h1 := (ih ip v0 hm).1
            simp only [mapRead, hm, Option.getD_some]
            omega
        constructor
        · omega
        · show v ≤ rl.MaxRequests
          omega
      · rw [if_neg hb] at hv
        have h3 := ih b v hv
        exact ⟨h3.1, h3.2⟩
  | reset rl hr ih =>
    intro ip v hv
    exact absurd hv (by simp [resetTick])

theorem reachable_read_nonneg (rl : RateLimiter) (h : Reachable rl)
    (ip : String) : 0 ≤ mapRead rl.Requests ip := by
  cases hm : rl.Requests ip with
  | none => simp [mapRead, hm]
  | some v =>
    have h1 := (counts_bounds_of_reachable rl h ip v hm).1
    simp only [mapRead, hm, Option.getD_some]
    omega

theorem allowN_add (a b : Nat) (rl : RateLimiter) (ip : String) :
    allowN rl ip (a + b) =
      ((allowN rl ip a).1 ++ (allowN (allowN rl ip a).2 ip b).1,
       (allowN (allowN rl ip a).2 ip b).2) := by
  induction a generalizing rl with
  | zero => simp [allowN]
  | succ a ih =>
    rw [Nat.succ_add]
    rw [allowN_succ rl ip (a + b)]
    rw [ih (AllowRequest rl ip).2]
    rw [allowN_succ rl ip a]
    simp

theorem allowRequest_false_eq (rl : RateLimiter) (ip : String)
    (h : (AllowRequest rl ip).1 = false) : AllowRequest rl ip = (false, rl) := by
  by_cases hc : rl.MaxRequests ≤ mapRead rl.Requests ip
  · exact allowRequest_of_ge rl ip hc
  · rw [allowRequest_of_lt rl ip (lt_of_not_le hc)] at h
    exact absurd h (by simp)

/-- The first piece of `splitChars` is the longest separator-free prefix. -/
theorem splitChars_head (sep : Char) (l : List Char) :
    (splitChars sep l).headD [] = l.takeWhile (fun c => c ≠ sep) := by
  induction l with
  | nil => rfl
  | cons c cs ih =>
    by_cases h : c = sep
    · simp [splitChars, h, List.takeWhile_cons]
    · simp [splitChars, h, List.takeWhile_cons]
      simpa using ih

/-! ## Concrete states used by the witnesses -/

/-- A fresh limiter with limit 2 and a one-minute window. -/
def rlFresh2 : RateLimiter :=
  { Requests := fun _ => none, MaxRequests := 2, WindowDuration := 60 }

/-- A limiter with limit 2 whose identifier "A" is exhausted. -/
def rlFull2 : RateLimiter :=
  { Requests := fun k => if k = "A" then some 2 else none
    MaxRequests := 2
    WindowDuration := 60 }

/-- A fresh limiter with limit 5 and a one-minute window. -/
def rlFresh5 : RateLimiter :=
  { Requests := fun _ => none, MaxRequests := 5, WindowDuration := 60 }

/-! ## Claims -/

/-- Claim C1: `AllowRequest` reads the current count for the identifier
(0 when absent); when that count is at or above `MaxRequests` it returns
`false` and leaves the state completely unchanged, otherwise it stores
count + 1 and returns `true`; consequently, starting from an absent
identifier with a non-negative limit, of `MaxRequests + 1` successive calls
the first `MaxRequests` return `true` and the (limit+1)-th returns
`false`. -/
theorem allowRequest_check_then_increment (rl : RateLimiter) (ip : String) :
    (rl.MaxRequests ≤ mapRead rl.Requests ip →
      AllowRequest rl ip = (false, rl)) ∧
    (mapRead rl.Requests ip < rl.MaxRequests →
      AllowRequest rl ip =
        (true, { rl with
                 Requests := mapWrite rl.Requests ip
                   (mapRead rl.Requests ip + 1) })) ∧
    (rl.Requests ip = none → 0 ≤ rl.MaxRequests →
      (allowN rl ip (rl.MaxRequests.toNat + 1)).1 =
        List.replicate rl.MaxRequests.toNat true ++ [false]) := by
  refine ⟨allowRequest_of_ge rl ip, allowRequest_of_lt rl ip, ?_⟩
  intro hfresh h0
  have hread : mapRead rl.Requests ip = 0 := by simp [mapRead, hfresh]
  have hcast : ((rl.MaxRequests.toNat : Int)) = rl.MaxRequests :=
    Int.toNat_of_nonneg h0
  obtain ⟨h1, h2, h3, _, _⟩ := allowN_accepts rl.MaxRequests.toNat rl ip
    (by rw [hread, hcast]; omega)
  have hsat : (allowN rl ip rl.MaxRequests.toNat).2.MaxRequests ≤
      mapRead (allowN rl ip rl.MaxRequests.toNat).2.Requests ip := by
    rw [h2, h3, hread, hcast]
    omega
  rw [allowN_add rl.MaxRequests.toNat 1 rl ip]
  show (allowN rl ip rl.MaxRequests.toNat).1 ++
      (allowN (allowN rl ip rl.MaxRequests.toNat).2 ip 1).1 = _
  rw [allowN_saturated 1 _ ip hsat, h1]
  rfl

/-- Witness for C1 at limit 2: a fresh identifier is accepted and
incremented, an exhausted one is rejected without mutation, and three calls
from fresh give true, true, false. -/
theorem allowRequest_check_then_increment_witness :
    AllowRequest rlFull2 "A" = (false, rlFull2) ∧
    AllowRequest rlFresh2 "A" =
      (true, { rlFresh2 with
               Requests := mapWrite rlFresh2.Requests "A"
                 (mapRead rlFresh2.Requests "A" + 1) }) ∧
    (allowN rlFresh2 "A" 3).1 = [true, true, false] := by
  refine ⟨(allowRequest_check_then_increment rlFull2 "A").1 (by decide),
          (allowRequest_check_then_increment rlFresh2 "A").2.1 (by decide),
          ?_⟩
  exact (allowRequest_check_then_increment rlFresh2 "A").2.2 rfl (by decide)

/-- Claim C2: with a positive limit and an absent identifier, each of the
first `k ≤ limit` calls is accepted and `GetRemainingRequests` then equals
`limit - k`; in general `GetRemainingRequests` equals
`max 0 (limit - count)` and is never negative. -/
theorem getRemaining_countdown (rl : RateLimiter) (ip : String) (k : Nat)
    (hfresh : rl.Requests ip = none) (hpos : 0 < rl.MaxRequests)
    (hk1 : 1 ≤ k) (hk2 : (k : Int) ≤ rl.MaxRequests) :
    (allowN rl ip k).1 = List.replicate k true ∧
    GetRemainingRequests (allowN rl ip k).2 ip = rl.MaxRequests - k ∧
    (∀ (rl2 : RateLimiter) (ip2 : String),
      GetRemainingRequests rl2 ip2 =
        max 0 (rl2.MaxRequests - mapRead rl2.Requests ip2) ∧
      0 ≤ GetRemainingRequests rl2 ip2) := by
  have hread : mapRead rl.Requests ip = 0 := by simp [mapRead, hfresh]
  obtain ⟨h1, h2, h3, _, _⟩ := allowN_accepts k rl ip (by rw [hread]; omega)
  refine ⟨h1, ?_, ?_⟩
  · rw [getRemaining_eq_max, h2, h3, hread]
    omega
  · intro rl2 ip2
    refine ⟨getRemaining_eq_max rl2 ip2, ?_⟩
    rw [getRemaining_eq_max]
    exact le_max_left 0 _

/-- Witness for C2 at limit 5, k = 3: all three calls are accepted and two
requests remain. -/
theorem getRemaining_countdown_witness :
    (allowN rlFresh5 "A" 3).1 = [true, true, true] ∧
    GetRemainingRequests (allowN rlFresh5 "A" 3).2 "A" = 2 := by
  have h := getRemaining_countdown rlFresh5 "A" 3 rfl (by decide) (by decide)
    (by decide)
  exact ⟨h.1, h.2.1⟩

/-- Claim C4: an `AllowRequest` for identifier `a` (accepted or rejected)
leaves every other identifier's entry and both configuration fields
unchanged; hence repeated calls for `a` never change
`GetRemainingRequests` for `b ≠ a`. -/
theorem allowRequest_frame (rl : RateLimiter) (a b : String) (h : a ≠ b) :
    (AllowRequest rl a).2.Requests b = rl.Requests b ∧
    (AllowRequest rl a).2.MaxRequests = rl.MaxRequests ∧
    (AllowRequest rl a).2.WindowDuration = rl.WindowDuration ∧
    ∀ n : Nat,
      GetRemainingRequests (allowN rl a n).2 b =
        GetRemainingRequests rl b := by
  refine ⟨allowRequest_other rl a b (Ne.symm h), allowRequest_max rl a,
          allowRequest_window rl a, ?_⟩
  intro n
  obtain ⟨h1, h2, h3⟩ := allowN_frame n rl a b (Ne.symm h)
  rw [getRemaining_eq_max, getRemaining_eq_max, h2]
  unfold mapRead
  rw [h1]

/-- Witness for C4: exhausting "A" with five calls at limit 2 leaves the
remaining count of "B" untouched. -/
theorem allowRequest_frame_witness :
    (AllowRequest rlFresh2 "A").2.Requests "B" = rlFresh2.Requests "B" ∧
    GetRemainingRequests (allowN rlFresh2 "A" 5).2 "B" =
      GetRemainingRequests rlFresh2 "B" := by
  have h := allowRequest_frame rlFresh2 "A" "B" (by decide)
  exact ⟨h.1, h.2.2.2 5⟩

/-- A limiter constructed with negative limit -1; the code accepts it. -/
def rlNeg1 : RateLimiter :=
  { Requests := fun _ => none, MaxRequests := -1, WindowDuration := 60 }

/-- C3 counterexample: `NewRateLimiter (-1) 60` yields a reachable limiter,
and right after a reset `GetRemainingRequests` returns 0, not the limit
-1, so the unconditional clause "after the reset GetRemainingRequests(id)
returns limit" fails. -/
theorem reset_remaining_counterexample :
    NewRateLimiter (-1) 60 = some rlNeg1 ∧
    Reachable rlNeg1 ∧
    rlNeg1.MaxRequests = -1 ∧
    GetRemainingRequests (resetTick rlNeg1) "A" = 0 ∧
    (0 : Int) ≠ -1 := by
  exact ⟨rfl, Reachable.init (-1) 60 rlNeg1 rfl, rfl, rfl, by decide⟩

/-- Claim C3 (amended): `resetTick` replaces the whole table by the empty
table in one step; afterwards `GetRemainingRequests` returns
`max 0 MaxRequests` — hence exactly `MaxRequests` whenever the limit is
non-negative — and, when the limit is positive, the next `AllowRequest`
returns `true`, for every prior state including exhausted ones. -/
theorem reset_restores_full_window (rl : RateLimiter) (ip : String) :
    (resetTick rl).Requests = (fun _ => none) ∧
    GetRemainingRequests (resetTick rl) ip = max 0 rl.MaxRequests ∧
    (0 ≤ rl.MaxRequests →
      GetRemainingRequests (resetTick rl) ip = rl.MaxRequests) ∧
    (0 < rl.MaxRequests → (AllowRequest (resetTick rl) ip).1 = true) := by
  have hread : mapRead (resetTick rl).Requests ip = 0 := rfl
  have hmax : (resetTick rl).MaxRequests = rl.MaxRequests := rfl
  refine ⟨rfl, ?_, ?_, ?_⟩
  · rw [getRemaining_eq_max, hread, hmax]
    omega
  · intro h0
    rw [getRemaining_eq_max, hread, hmax]
    omega
  · intro hpos
    have := allowRequest_of_lt (resetTick rl) ip (by rw [hread, hmax]; omega)
    rw [this]

/-- Witness for C3 (amended) at an exhausted limiter with limit 2: after
the reset the whole window is available again. -/
theorem reset_restores_full_window_witness :
    GetRemainingRequests (resetTick rlFull2) "A" = rlFull2.MaxRequests ∧
    (AllowRequest (resetTick rlFull2) "A").1 = true := by
  have h := reset_restores_full_window rlFull2 "A"
  exact ⟨h.2.2.1 (by decide), h.2.2.2 (by decide)⟩

/-- Claim C5: the mutex makes each `AllowRequest` body atomic, so a run of
`n` concurrent single calls for one identifier is equivalent to `n`
sequential calls in some order — and all orders are the same call sequence
here. Starting from an absent identifier with `0 ≤ limit < n`, exactly
`limit` calls return `true`, the other `n - limit` return `false`, and
the final stored count equals `limit` exactly. -/
theorem concurrent_exhaustion (rl : RateLimiter) (ip : String) (n : Nat)
    (hfresh : rl.Requests ip = none) (h0 : 0 ≤ rl.MaxRequests)
    (hn : rl.MaxRequests < (n : Int)) :
    (allowN rl ip n).1 =
      List.replicate rl.MaxRequests.toNat true ++
        List.replicate (n - rl.MaxRequests.toNat) false ∧
    (allowN rl ip n).1.count true = rl.MaxRequests.toNat ∧
    (allowN rl ip n).1.count false = n - rl.MaxRequests.toNat ∧
    mapRead (allowN rl ip n).2.Requests ip = rl.MaxRequests := by
  have hread : mapRead rl.Requests ip = 0 := by simp [mapRead, hfresh]
  have hcast : ((rl.MaxRequests.toNat : Int)) = rl.MaxRequests :=
    Int.toNat_of_nonneg h0
  have hmn : rl.MaxRequests.toNat ≤ n := by omega
  obtain ⟨h1, h2, h3, _, _⟩ := allowN_accepts rl.MaxRequests.toNat rl ip
    (by rw [hread, hcast]; omega)
  have hsat : (allowN rl ip rl.MaxRequests.toNat).2.MaxRequests ≤
      mapRead (allowN rl ip rl.MaxRequests.toNat).2.Requests ip := by
    rw [h2, h3, hread, hcast]
    omega
  have hsplit : n = rl.MaxRequests.toNat + (n - rl.MaxRequests.toNat) :=
    (Nat.add_sub_cancel' hmn).symm
  have hlist : (allowN rl ip n).1 =
      List.replicate rl.MaxRequests.toNat true ++
        List.replicate (n - rl.MaxRequests.toNat) false := by
    rw [hsplit, allowN_add rl.MaxRequests.toNat (n - rl.MaxRequests.toNat)
      rl ip]
    show (allowN rl ip rl.MaxRequests.toNat).1 ++
        (allowN (allowN rl ip rl.MaxRequests.toNat).2 ip
          (n - rl.MaxRequests.toNat)).1 = _
    rw [allowN_saturated (n - rl.MaxRequests.toNat) _ ip hsat, h1]
    simp [Nat.add_sub_cancel_left]
  have hstate : mapRead (allowN rl ip n).2.Requests ip = rl.MaxRequests := by
    rw [hsplit, allowN_add rl.MaxRequests.toNat (n - rl.MaxRequests.toNat)
      rl ip]
    show mapRead (allowN (allowN rl ip rl.MaxRequests.toNat).2 ip
      (n - rl.MaxRequests.toNat)).2.Requests ip = _
    rw [allowN_saturated (n - rl.MaxRequests.toNat) _ ip hsat]
    rw [h2, hread, hcast]
    omega
  refine ⟨hlist, ?_, ?_, hstate⟩
  · rw [hlist]
    simp [List.count_append, List.count_replicate]
  · rw [hlist]
    simp [List.count_append, List.count_replicate]

/-- Witness for C5: four calls at limit 2 give exactly two acceptances,
two rejections, and a final stored count of 2. -/
theorem concurrent_exhaustion_witness :
    (allowN rlFresh2 "A" 4).1 = [true, true, false, false] ∧
    (allowN rlFresh2 "A" 4).1.count true = 2 ∧
    (allowN rlFresh2 "A" 4).1.count false = 2 ∧
    mapRead (allowN rlFresh2 "A" 4).2.Requests "A" = 2 := by
  have h := concurrent_exhaustion rlFresh2 "A" 4 rfl (by decide) (by decide)
  exact ⟨h.1, h.2.1, h.2.2.1, h.2.2.2⟩

/-- A limiter constructed with negative limit -5; the code accepts it. -/
def rlNeg5 : RateLimiter :=
  { Requests := fun _ => none, MaxRequests := -5, WindowDuration := 60 }

/-- C6 counterexample: construction with `maxRequests = -5` (and a valid
window) does not fail — `NewRateLimiter` returns a limiter object, so it
does not refuse to construct on a non-positive limit. -/
theorem newRateLimiter_no_limit_check :
    NewRateLimiter (-5) 60 = some rlNeg5 ∧
    NewRateLimiter (-5) 60 ≠ none := by
  refine ⟨rfl, ?_⟩
  intro h
  rw [show NewRateLimiter (-5) 60 = some rlNeg5 from rfl] at h
  exact Option.noConfusion h

/-- Claim C6 (amended): `NewRateLimiter` performs no validation of
`maxRequests` — for every limit, even non-positive ones, construction with
a positive window returns a limiter; only a non-positive `windowDuration`
fails at construction (the `time.NewTicker` call inside
`startResetTicker` panics). -/
theorem newRateLimiter_construction (m w : Int) :
    (0 < w → NewRateLimiter m w =
      some { Requests := fun _ => none
             MaxRequests := m
             WindowDuration := w }) ∧
    (w ≤ 0 → NewRateLimiter m w = none) := by
  constructor
  · intro hw
    unfold NewRateLimiter
    rw [if_neg (not_le.mpr hw)]
  · intro hw
    unfold NewRateLimiter
    rw [if_pos hw]

/-- Witness for C6 (amended): limit -5 with window 60 constructs; window 0
fails. -/
theorem newRateLimiter_construction_witness :
    NewRateLimiter (-5) 60 = some rlNeg5 ∧
    NewRateLimiter 5 0 = none := by
  exact ⟨(newRateLimiter_construction (-5) 60).1 (by decide),
         (newRateLimiter_construction 5 0).2 (by decide)⟩

/-- Claim C7: the middleware invokes the downstream continuation with the
original, unmodified request exactly when `AllowRequest` on the extracted
identifier returns `true`; on `false` it does not invoke the continuation,
emits status 429 with content type application/json and the JSON error
body, and the store is left exactly as it was. -/
theorem middleware_gate (rl : RateLimiter) (r : Request) :
    ((AllowRequest rl (getClientIP r)).1 = true →
      RateLimitMiddleware rl r =
        (MWResult.passed r, (AllowRequest rl (getClientIP r)).2)) ∧
    ((AllowRequest rl (getClientIP r)).1 = false →
      RateLimitMiddleware rl r =
        (MWResult.rejected 429 "application/json" rateLimitErrorBody, rl)) ∧
    (∀ out rl2, RateLimitMiddleware rl r = (out, rl2) →
      ((∃ req, out = MWResult.passed req) ↔
        (AllowRequest rl (getClientIP r)).1 = true)) := by
  refine ⟨?_, ?_, ?_⟩
  · intro h
    simp only [RateLimitMiddleware]
    rw [h]
    rfl
  · intro h
    have he := allowRequest_false_eq rl (getClientIP r) h
    simp only [RateLimitMiddleware]
    rw [he]
    rfl
  · intro out rl2 hrun
    simp only [RateLimitMiddleware] at hrun
    by_cases h : (AllowRequest rl (getClientIP r)).1 = true
    · rw [h] at hrun
      simp only [if_true] at hrun
      injection hrun with h1 h2
      exact ⟨fun _ => h, fun _ => ⟨r, h1.symm⟩⟩
    · rw [Bool.not_eq_true] at h
      rw [h] at hrun
      simp only [Bool.false_eq_true, if_false] at hrun
      injection hrun with h1 h2
      constructor
      · intro hex
        obtain ⟨req, hreq⟩ := hex
        rw [← h1] at hreq
        exact absurd hreq (by simp)
      · intro htrue
        rw [htrue] at h
        exact absurd h (by simp)

/-- A request with no proxy headers whose connection address resolves to
identifier "A". -/
def reqA : Request := { xForwardedFor := "", xRealIP := "", remoteAddr := "A:80" }

/-- Witness for C7: at limit 2, a fresh limiter passes the request through
unmodified; an exhausted limiter answers 429 with the JSON error body and
an unchanged store. -/
theorem middleware_gate_witness :
    RateLimitMiddleware rlFresh2 reqA =
      (MWResult.passed reqA, (AllowRequest rlFresh2 (getClientIP reqA)).2) ∧
    RateLimitMiddleware rlFull2 reqA =
      (MWResult.rejected 429 "application/json" rateLimitErrorBody,
       rlFull2) := by
  exact ⟨(middleware_gate rlFresh2 reqA).1 (by decide),
         (middleware_gate rlFull2 reqA).2.1 (by decide)⟩

/-- Claim C8: `getClientIP` returns the first comma-separated entry of
X-Forwarded-For trimmed of whitespace when that header is non-empty;
otherwise the X-Real-IP value trimmed when non-empty; otherwise
`RemoteAddr` with the suffix from its last colon onward removed (unchanged
when it has no colon); in particular the three reference examples
resolve to "1.2.3.4", "9.8.7.6" and "10.0.0.1". -/
theorem getClientIP_policy :
    (∀ r : Request, r.xForwardedFor ≠ "" →
      getClientIP r =
        goTrimSpace ⟨r.xForwardedFor.data.takeWhile (fun c => c ≠ ',')⟩) ∧
    (∀ r : Request, r.xForwardedFor = "" → r.xRealIP ≠ "" →
      getClientIP r = goTrimSpace r.xRealIP) ∧
    (∀ r : Request, r.xForwardedFor = "" → r.xRealIP = "" →
      getClientIP r = stripPort r.remoteAddr) ∧
    (∀ s : String, s.data.contains ':' = false → stripPort s = s) ∧
    getClientIP ⟨"1.2.3.4, 5.6.7.8", "", "10.0.0.1:54321"⟩ = "1.2.3.4" ∧
    getClientIP ⟨"", "9.8.7.6", "10.0.0.1:54321"⟩ = "9.8.7.6" ∧
    getClientIP ⟨"", "", "10.0.0.1:54321"⟩ = "10.0.0.1" := by
  refine ⟨?_, ?_, ?_, ?_, by decide, by decide, by decide⟩
  · intro r h
    unfold getClientIP
    rw [if_pos h, splitChars_head]
  · intro r h1 h2
    unfold getClientIP
    rw [if_neg (by simp [h1]), if_pos h2]
  · intro r h1 h2
    unfold getClientIP
    rw [if_neg (by simp [h1]), if_neg (by simp [h2])]
  · intro s h
    unfold stripPort
    rw [if_neg (by rw [h]; simp)]

/-- Witness for C8: the header-precedence clauses applied at concrete
requests, including a forwarded entry that needs trimming. -/
theorem getClientIP_policy_witness :
    getClientIP ⟨" 7.7.7.7 ,8.8.8.8", "9.9.9.9", "1.1.1.1:9"⟩ = "7.7.7.7" ∧
    getClientIP ⟨"", " 9.9.9.9 ", "1.1.1.1:9"⟩ = "9.9.9.9" ∧
    getClientIP ⟨"", "", "noport"⟩ = "noport" := by
  refine ⟨?_, ?_, ?_⟩
  · rw [getClientIP_policy.1 ⟨" 7.7.7.7 ,8.8.8.8", "9.9.9.9", "1.1.1.1:9"⟩
      (by decide)]
    decide
  · rw [getClientIP_policy.2.1 ⟨"", " 9.9.9.9 ", "1.1.1.1:9"⟩ rfl (by decide)]
    decide
  · rw [getClientIP_policy.2.2.1 ⟨"", "", "noport"⟩ rfl rfl,
      getClientIP_policy.2.2.2.1 "noport" (by decide)]

/-- Claim C9: in every reachable limiter state, every identifier present
as a key in the Requests map stores a count between 1 and MaxRequests; the
map starts empty, `AllowRequest` only writes values in that range,
`GetRemainingRequests` never writes, and a reset empties the map. -/
theorem reachable_counts_invariant (rl : RateLimiter) (h : Reachable rl) :
    CountsInvariant rl :=
  counts_bounds_of_reachable rl h

/-- Witness for C9: the invariant at the reachable state obtained by
constructing a limit-2 limiter and accepting one request for "A". -/
theorem reachable_counts_invariant_witness :
    CountsInvariant (AllowRequest rlFresh2 "A").2 :=
  reachable_counts_invariant (AllowRequest rlFresh2 "A").2
    (Reachable.allow rlFresh2 "A" (Reachable.init 2 60 rlFresh2 rfl))

/-- A limiter constructed with limit 0. -/
def rlZero : RateLimiter :=
  { Requests := fun _ => none, MaxRequests := 0, WindowDuration := 60 }

/-- Claim C10: with a non-positive limit, in every reachable state every
`AllowRequest` returns `false` and leaves the state unchanged,
`GetRemainingRequests` returns 0, and construction (with a positive
window) still returns a limiter object rather than failing. -/
theorem nonpositive_limit_rejects_all (rl : RateLimiter) (h : Reachable rl)
    (hm : rl.MaxRequests ≤ 0) (ip : String) :
    AllowRequest rl ip = (false, rl) ∧
    GetRemainingRequests rl ip = 0 ∧
    (∀ m w : Int, m ≤ 0 → 0 < w →
      NewRateLimiter m w =
        some { Requests := fun _ => none
               MaxRequests := m
               WindowDuration := w }) := by
  have hnn : 0 ≤ mapRead rl.Requests ip := reachable_read_nonneg rl h ip
  refine ⟨allowRequest_of_ge rl ip (by omega), ?_, ?_⟩
  · rw [getRemaining_eq_max]
    omega
  · intro m w hm0 hw
    unfold NewRateLimiter
    rw [if_neg (not_le.mpr hw)]

/-- Witness for C10 at limit 0: the single-call rejection, the zero
remaining count, and successful construction. -/
theorem nonpositive_limit_rejects_all_witness :
    AllowRequest rlZero "A" = (false, rlZero) ∧
    GetRemainingRequests rlZero "A" = 0 ∧
    NewRateLimiter 0 60 = some rlZero := by
  have h := nonpositive_limit_rejects_all rlZero
    (Reachable.init 0 60 rlZero rfl) (by decide) "A"
  exact ⟨h.1, h.2.1, h.2.2 0 60 (by decide) (by decide)⟩
